import Mathlib

/-!
Verification of the binary-signals bot against its specification.

The definitions below are shallow embeddings of the TypeScript sources:
prices are rationals, epoch timestamps are naturals (milliseconds use `Int`
where the source subtracts), JavaScript `Map`s become association lists or
point functions, and event emission becomes an explicit list of emitted
values in the return type.
-/

/-! ### Candle aggregation (`server/services/candleAggregator.ts`, `server/utils/time.ts`) -/

/-- `getCandleBoundary` from `server/utils/time.ts`:
`Math.floor(timestamp / timeframeSec) * timeframeSec` on integer epochs. -/
def getCandleBoundary (timestamp timeframeSec : Nat) : Nat :=
  timestamp / timeframeSec * timeframeSec

/-- A tick from the price feed: symbol, price, epoch-second timestamp. -/
structure Tick where
  symbol : String
  price : ℚ
  timestamp : Nat
deriving DecidableEq

/-- A candle as in `@shared/schema`: OHLC prices, start epoch (`timestamp`),
tick count and forming flag.  `open` is a Lean keyword, hence `open_`. -/
structure Candle where
  symbol : String
  timeframe : Nat
  open_ : ℚ
  high : ℚ
  low : ℚ
  close : ℚ
  timestamp : Nat
  tickCount : Nat
  isForming : Bool
deriving DecidableEq

/-- Per-(symbol, timeframe) aggregator state, as in `SymbolAggregator`. -/
structure SymbolAggregator where
  timeframe : Nat
  closedCandles : List Candle
  formingCandle : Option Candle
  maxCandles : Nat
deriving DecidableEq

/-- A freshly allocated forming candle, all OHLC fields at the tick's price. -/
def newFormingCandle (tick : Tick) (timeframe boundary : Nat) : Candle :=
  { symbol := tick.symbol, timeframe := timeframe,
    open_ := tick.price, high := tick.price, low := tick.price, close := tick.price,
    timestamp := boundary, tickCount := 1, isForming := true }

/-- `CandleAggregator.processTick`: returns the updated aggregator state and
the list of `closed` candles emitted (empty or a singleton).  Mirrors the
source: no forming candle allocates one; a boundary differing from the
forming candle's timestamp freezes it, appends it to the ring (shifting the
oldest element out when over capacity) and allocates a new forming candle;
otherwise the forming candle is folded with the tick. -/
def processTick (agg : SymbolAggregator) (tick : Tick) (timeframe : Nat) :
    SymbolAggregator × List Candle :=
  let candleBoundary := getCandleBoundary tick.timestamp timeframe
  match agg.formingCandle with
  | none =>
      ({ agg with formingCandle := some (newFormingCandle tick timeframe candleBoundary) }, [])
  | some forming =>
      if candleBoundary ≠ forming.timestamp then
        let closedCandle : Candle := { forming with isForming := false }
        let pushed := agg.closedCandles ++ [closedCandle]
        let ring := if agg.maxCandles < pushed.length then pushed.tail else pushed
        ({ agg with closedCandles := ring,
                    formingCandle := some (newFormingCandle tick timeframe candleBoundary) },
         [closedCandle])
      else
        let folded : Candle :=
          { forming with high := max forming.high tick.price,
                         low := min forming.low tick.price,
                         close := tick.price,
                         tickCount := forming.tickCount + 1 }
        ({ agg with formingCandle := some folded }, [])

/-- Specification-side step, written from the spec text: boundary is
⌊epoch / timeframe⌋ · timeframe; first tick allocates a forming candle with
o = h = l = c = price, startEpoch = boundary, tickCount = 1; a tick with the
same boundary folds `h = max h p; l = min l p; c = p; tickCount + 1`; a tick
with a new boundary freezes the forming candle as closed, appends it to the
ring (dropping the oldest when full), emits it, and allocates a new forming
candle from the tick. -/
def processTickSpec (agg : SymbolAggregator) (tick : Tick) (timeframe : Nat) :
    SymbolAggregator × List Candle :=
  let boundary := tick.timestamp / timeframe * timeframe
  match agg.formingCandle with
  | none =>
      ({ agg with formingCandle := some (newFormingCandle tick timeframe boundary) }, [])
  | some forming =>
      if boundary = forming.timestamp then
        let folded : Candle :=
          { forming with high := max forming.high tick.price,
                         low := min forming.low tick.price,
                         close := tick.price,
                         tickCount := forming.tickCount + 1 }
        ({ agg with formingCandle := some folded }, [])
      else
        let frozen : Candle := { forming with isForming := false }
        let appended := agg.closedCandles ++ [frozen]
        let ring := if agg.maxCandles < appended.length then appended.tail else appended
        ({ agg with closedCandles := ring,
                    formingCandle := some (newFormingCandle tick timeframe boundary) },
         [frozen])

/-- Aggregator state after `initialize(symbol, timeframe, [], maxCandles)`:
empty ring, no forming candle. -/
def initAgg (timeframe maxCandles : Nat) : SymbolAggregator :=
  { timeframe := timeframe, closedCandles := [], formingCandle := none,
    maxCandles := maxCandles }

/-- Fold a list of ticks through `processTick` (state only). -/
def processTicks (agg : SymbolAggregator) (ticks : List Tick) (timeframe : Nat) :
    SymbolAggregator :=
  ticks.foldl (fun a t => (processTick a t timeframe).1) agg

/-- Start epochs of the closed ring followed by the forming candle's epoch. -/
def aggTimes (agg : SymbolAggregator) : List Nat :=
  agg.closedCandles.map (fun c => c.timestamp) ++
    (match agg.formingCandle with
     | some f => [f.timestamp]
     | none => [])

/-- Start epochs of the closed ring. -/
def ringTimes (agg : SymbolAggregator) : List Nat :=
  agg.closedCandles.map (fun c => c.timestamp)

/-! ### Candle-close signal dedup (`server/services/sessionManager.ts`) -/

/-- The string key built in `setupCandleCloseListener`. -/
def candleKey (symbol : String) (timeframe ts : Nat) : String :=
  s!"{symbol}-{timeframe}-{ts}"

/-- One pass of the candle-close handler for a single active session whose
symbol and timeframe match the event.  The session state is its
`lastSignalCandleTimestamp` (`none` when unset).  `lastKey` is built only
when the stored timestamp is truthy in JavaScript, i.e. present and nonzero.
Returns whether `candleCloseSignal` is published, and the updated state. -/
def candleCloseStep (symbol : String) (timeframe : Nat) (last : Option Nat)
    (ts : Nat) : Bool × Option Nat :=
  let ck := candleKey symbol timeframe ts
  let lk : Option String :=
    match last with
    | some t => if t = 0 then none else some (candleKey symbol timeframe t)
    | none => none
  if some ck ≠ lk then (true, some ts) else (false, last)

/-- Number of `candleCloseSignal` publications over a list of closed events
(start epochs), threading the session's `lastSignalCandleTimestamp`. -/
def candleCloseEmits (symbol : String) (timeframe : Nat) (last : Option Nat) :
    List Nat → Nat
  | [] => 0
  | ts :: rest =>
      let r := candleCloseStep symbol timeframe last ts
      (if r.1 then 1 else 0) + candleCloseEmits symbol timeframe r.2 rest

/-! ### Win/loss resolution (`server/services/winLossTracker.ts`) -/

/-- Signal directions from `@shared/schema`. -/
inductive Direction where
  | CALL
  | PUT
  | NO_TRADE
deriving DecidableEq

/-- Trade outcome as resolved by the tracker. -/
inductive TradeOutcome where
  | WIN
  | LOSS
deriving DecidableEq

/-- The outcome computation of `WinLossTracker.checkPendingSignals`:
`CALL` wins iff `exitPrice > entryPrice`, `PUT` wins iff
`exitPrice < entryPrice`, otherwise `LOSS`; a `NO_TRADE` pending signal is
skipped (`continue`), modelled as `none`. -/
def computeOutcome (direction : Direction) (entryPrice exitPrice : ℚ) :
    Option TradeOutcome :=
  match direction with
  | .CALL => some (if entryPrice < exitPrice then .WIN else .LOSS)
  | .PUT => some (if exitPrice < entryPrice then .WIN else .LOSS)
  | .NO_TRADE => none

/-! ### Signal generation guard (`server/services/signalEngine.ts`,
`server/config/indicators.ts`) -/

/-- `VOLATILITY_CONFIG.minCandlesForSignal`. -/
def minCandlesForSignal : Nat := 50

/-- One indicator vote (contents irrelevant to the guard). -/
structure Vote where
  name : String
  direction : Direction
  weight : ℚ
deriving DecidableEq

/-- The psychology block of a `SignalResult`. -/
structure PsychologyAnalysis where
  bodyRatio : ℚ
  upperWickRatio : ℚ
  lowerWickRatio : ℚ
  isDoji : Bool
  patterns : List String
  bias : String
  orderBlockProbability : ℚ
  fvgDetected : Bool
deriving DecidableEq

/-- A `SignalResult` as returned by `generateSignal` (indicator map modelled
as an association list). -/
structure SignalResult where
  sessionId : String
  symbol : String
  timeframe : Nat
  timestamp : Nat
  candleCloseTime : Nat
  direction : Direction
  confidence : ℚ
  pUp : ℚ
  pDown : ℚ
  votes : List Vote
  indicators : List (String × ℚ)
  psychology : PsychologyAnalysis
  volatilityOverride : Bool
  volatilityReason : Option String
  closedCandlesCount : Nat
  formingCandle : Option Candle
deriving DecidableEq

/-- `generateSignal`, with everything past the insufficient-history guard
abstracted as `rest`: the guard returns the neutral `NO_TRADE` result
without reaching indicators, patterns or ML. -/
def generateSignal (rest : List Candle → Option Candle → SignalResult)
    (sessionId symbol : String) (timeframe timestamp : Nat)
    (closedCandles : List Candle) (formingCandle : Option Candle)
    (candleCloseTime : Nat) : SignalResult :=
  if closedCandles.length < minCandlesForSignal then
    { sessionId := sessionId, symbol := symbol, timeframe := timeframe,
      timestamp := timestamp, candleCloseTime := candleCloseTime,
      direction := .NO_TRADE, confidence := 0, pUp := 1/2, pDown := 1/2,
      votes := [], indicators := [],
      psychology :=
        { bodyRatio := 0, upperWickRatio := 0, lowerWickRatio := 0,
          isDoji := false, patterns := [], bias := "neutral",
          orderBlockProbability := 0, fvgDetected := false },
      volatilityOverride := false, volatilityReason := none,
      closedCandlesCount := closedCandles.length,
      formingCandle := formingCandle }
  else rest closedCandles formingCandle

/-! ### Pattern memory (`server/services/ml/ensembleModel.ts`) -/

/-- Per-signature counters of the `PatternRecognizer`. -/
structure PatternStats where
  wins : ℚ
  total : ℚ
deriving DecidableEq

/-- The recognizer's `Map<string, stats>` as a point function. -/
def PatternMemory : Type := String → Option PatternStats

/-- Decay rate passed by the `EnsemblePredictor` constructor:
`new PatternRecognizer(0.99)`. -/
def ensembleDecayRate : ℚ := 0.99

/-- Default decay rate of the `PatternRecognizer` constructor. -/
def defaultDecayRate : ℚ := 0.995

/-- `PatternRecognizer.recordOutcome`: every stored signature's counters are
multiplied by the decay rate `d` and evicted when the decayed total drops
below `0.1`; then the current signature (looked up after decay/eviction,
defaulting to `(0, 0)`) has `total` incremented by 1 and `wins` by 1 on a
win. -/
def recordPatternOutcome (d : ℚ) (mem : PatternMemory) (sig : String)
    (won : Bool) : PatternMemory :=
  let decayed : PatternMemory := fun k =>
    match mem k with
    | some s =>
        let s' : PatternStats := ⟨s.wins * d, s.total * d⟩
        if s'.total < 0.1 then none else some s'
    | none => none
  fun k =>
    if k = sig then
      let ex := (decayed sig).getD ⟨0, 0⟩
      some ⟨ex.wins + (if won then 1 else 0), ex.total + 1⟩
    else decayed k

/-- The ensemble's pattern-memory update (decay rate 0.99). -/
def ensemblePatternRecord (mem : PatternMemory) (sig : String) (won : Bool) :
    PatternMemory :=
  recordPatternOutcome ensembleDecayRate mem sig won

/-! ### Adaptive threshold window (`server/services/winLossTracker.ts`) -/

/-- One entry of the adaptive manager's performance window.  Timestamps are
epoch milliseconds, taken as integers. -/
structure PerfEntry where
  won : Bool
  timestamp : Int
  confidence : ℚ
deriving DecidableEq

/-- `AdaptiveThresholdManager.windowSize`. -/
def atmWindowSize : Nat := 30

/-- `AdaptiveThresholdManager.recordOutcome` restricted to the performance
window: push the new entry, prune entries with `timestamp ≤ now - 7200000`,
and when the result exceeds `windowSize * 2` keep only the last
`windowSize` entries (`slice(-30)`). -/
def atmRecordOutcome (window : List PerfEntry) (now : Int) (won : Bool)
    (confidence : ℚ) : List PerfEntry :=
  let pushed := window ++ [⟨won, now, confidence⟩]
  let cutoff := now - 7200000
  let pruned := pushed.filter (fun e => cutoff < e.timestamp)
  if atmWindowSize * 2 < pruned.length then
    pruned.drop (pruned.length - atmWindowSize)
  else pruned

/-! ### Session stats (`server/telegram/handlers.ts`) -/

/-- `SessionStats` cached per session. -/
structure SessionStats where
  wins : Nat
  losses : Nat
  winRate : ℚ
  totalSignals : Nat
deriving DecidableEq

/-- `updateSessionStats`: bump the counters and recompute
`winRate = (wins / totalSignals) * 100` (guarded by `totalSignals > 0`). -/
def updateSessionStats (stats : SessionStats) (outcome : TradeOutcome) :
    SessionStats :=
  let totalSignals := stats.totalSignals + 1
  let wins := if outcome = .WIN then stats.wins + 1 else stats.wins
  let losses := if outcome = .WIN then stats.losses else stats.losses + 1
  { wins := wins, losses := losses, totalSignals := totalSignals,
    winRate :=
      if 0 < totalSignals then ((wins : ℚ) / (totalSignals : ℚ)) * 100 else 0 }

/-! ### kNN classifier (`server/services/ml/ensembleModel.ts`) -/

/-- The `KNNClassifier` buffer: parallel feature and label lists with a
capacity. -/
structure KNNBuffer where
  features : List (List ℚ)
  labels : List ℚ
  maxSize : Nat
deriving DecidableEq

/-- A fresh buffer of the given capacity. -/
def knnEmpty (maxSize : Nat) : KNNBuffer :=
  { features := [], labels := [], maxSize := maxSize }

/-- `KNNClassifier.add`: push the sample, shifting the oldest out when over
capacity. -/
def knnAdd (buf : KNNBuffer) (f : List ℚ) (label : ℚ) : KNNBuffer :=
  let fs := buf.features ++ [f]
  let ls := buf.labels ++ [label]
  if buf.maxSize < fs.length then
    { features := fs.tail, labels := ls.tail, maxSize := buf.maxSize }
  else
    { features := fs, labels := ls, maxSize := buf.maxSize }

/-- Add a list of labelled samples in order. -/
def knnAddAll (buf : KNNBuffer) (samples : List (List ℚ × ℚ)) : KNNBuffer :=
  samples.foldl (fun b s => knnAdd b s.1 s.2) buf

/-- Capacity passed by the `EnsemblePredictor` constructor:
`new KNNClassifier(150, 7)`. -/
def ensembleKNNSize : Nat := 150

/-- Neighbour count passed by the `EnsemblePredictor` constructor. -/
def ensembleK : Nat := 7

/-- `KNNClassifier.predict`: below `k` stored samples it returns the neutral
probability `0.5`; the distance-weighted vote beyond the guard (which uses
`Math.sqrt`) is abstracted as `rest`. -/
def knnPredict (rest : KNNBuffer → List ℚ → ℚ) (buf : KNNBuffer) (k : Nat)
    (features : List ℚ) : ℚ :=
  if buf.features.length < k then 1/2 else rest buf features

/-! ### Auxiliary definitions for the proofs -/

/-- Invariant carried through tick processing: the start epochs of the ring
followed by the forming candle are strictly increasing, all bounded by
`bnd`, and the ring is empty while no forming candle exists. -/
def AggInv (agg : SymbolAggregator) (bnd : Nat) : Prop :=
  List.Pairwise (· < ·) (aggTimes agg) ∧
  (∀ x ∈ aggTimes agg, x ≤ bnd) ∧
  (agg.formingCandle = none → agg.closedCandles = [])

/-- A throwaway candle used to build concrete inputs. -/
def dummyCandle : Candle :=
  { symbol := "R_100", timeframe := 60, open_ := 1, high := 1, low := 1,
    close := 1, timestamp := 0, tickCount := 1, isForming := false }

/-- A concrete continuation for `generateSignal`, used to instantiate the
guard theorem. -/
def restSignal : List Candle → Option Candle → SignalResult :=
  fun closed forming =>
    { sessionId := "s", symbol := "R_100", timeframe := 60, timestamp := 0,
      candleCloseTime := 0, direction := .CALL, confidence := 90,
      pUp := 9/10, pDown := 1/10, votes := [], indicators := [],
      psychology :=
        { bodyRatio := 0, upperWickRatio := 0, lowerWickRatio := 0,
          isDoji := false, patterns := [], bias := "neutral",
          orderBlockProbability := 0, fvgDetected := false },
      volatilityOverride := false, volatilityReason := none,
      closedCandlesCount := closed.length, formingCandle := forming }

/-- A concrete continuation for `knnPredict`. -/
def restKNN : KNNBuffer → List ℚ → ℚ := fun _ _ => 0

/-- A concrete one-signature pattern memory. -/
def patternMem0 : PatternMemory :=
  fun k => if k = "X" then some ⟨1, 1⟩ else none

/-! ## Theorems -/

/-- C1: `CandleAggregator.processTick` folds every tick exactly per the
spec's algorithm: boundary ⌊epoch / timeframe⌋ · timeframe; first tick
allocates a forming candle with o = h = l = c = price and tickCount 1; a
same-boundary tick folds max/min/close/tickCount; a tick with a different
boundary freezes the forming candle into the ring (evicting the oldest when
full), emits it as the single closed event, and allocates a new forming
candle from the tick. -/
theorem processTick_refines_spec (agg : SymbolAggregator) (tick : Tick)
    (timeframe : Nat) :
    processTick agg tick timeframe = processTickSpec agg tick timeframe := by
  unfold processTick processTickSpec getCandleBoundary
  cases agg.formingCandle with
  | none => rfl
  | some f =>
      by_cases h : tick.timestamp / timeframe * timeframe = f.timestamp
      · simp [h]
      · simp [h]

/-- C3: at expiry, a CALL wins iff exit > entry, a PUT wins iff
exit < entry, and a tie is a LOSS for both directions. -/
theorem outcome_resolution (entry exit : ℚ) :
    (computeOutcome .CALL entry exit = some .WIN ↔ entry < exit) ∧
    (computeOutcome .PUT entry exit = some .WIN ↔ exit < entry) ∧
    (exit = entry →
      computeOutcome .CALL entry exit = some .LOSS ∧
      computeOutcome .PUT entry exit = some .LOSS) := by
  unfold computeOutcome
  refine ⟨?_, ?_, ?_⟩
  · by_cases h : entry < exit <;> simp [h]
  · by_cases h : exit < entry <;> simp [h]
  · intro he
    subst he
    simp [lt_irrefl]

/-- Witness for C3 at entry = exit = 5. -/
theorem outcome_resolution_witness :
    computeOutcome .CALL 5 5 = some .LOSS ∧
    computeOutcome .PUT 5 5 = some .LOSS :=
  (outcome_resolution 5 5).2.2 rfl

/-- C4: with fewer than 50 closed candles, `generateSignal` returns the
neutral NO_TRADE result (confidence 0, pUp = pDown = 0.5, no votes, no
volatility override, actual candle count) for every continuation `rest`,
so indicators, patterns and ML are never consulted. -/
theorem generateSignal_insufficient
    (rest : List Candle → Option Candle → SignalResult)
    (sessionId symbol : String) (timeframe timestamp : Nat)
    (closedCandles : List Candle) (formingCandle : Option Candle)
    (candleCloseTime : Nat)
    (h : closedCandles.length < 50) :
    generateSignal rest sessionId symbol timeframe timestamp closedCandles
        formingCandle candleCloseTime =
      { sessionId := sessionId, symbol := symbol, timeframe := timeframe,
        timestamp := timestamp, candleCloseTime := candleCloseTime,
        direction := .NO_TRADE, confidence := 0, pUp := 1/2, pDown := 1/2,
        votes := [], indicators := [],
        psychology :=
          { bodyRatio := 0, upperWickRatio := 0, lowerWickRatio := 0,
            isDoji := false, patterns := [], bias := "neutral",
            orderBlockProbability := 0, fvgDetected := false },
        volatilityOverride := false, volatilityReason := none,
        closedCandlesCount := closedCandles.length,
        formingCandle := formingCandle } := by
  unfold generateSignal minCandlesForSignal
  simp [h]

/-- Witness for C4 at 49 closed candles. -/
theorem generateSignal_insufficient_witness :
    generateSignal restSignal "s" "R_100" 60 0 (List.replicate 49 dummyCandle)
        none 0 =
      { sessionId := "s", symbol := "R_100", timeframe := 60,
        timestamp := 0, candleCloseTime := 0,
        direction := .NO_TRADE, confidence := 0, pUp := 1/2, pDown := 1/2,
        votes := [], indicators := [],
        psychology :=
          { bodyRatio := 0, upperWickRatio := 0, lowerWickRatio := 0,
            isDoji := false, patterns := [], bias := "neutral",
            orderBlockProbability := 0, fvgDetected := false },
        volatilityOverride := false, volatilityReason := none,
        closedCandlesCount := (List.replicate 49 dummyCandle).length,
        formingCandle := none } :=
  generateSignal_insufficient restSignal "s" "R_100" 60 0
    (List.replicate 49 dummyCandle) none 0 (by simp)

/-- C6, counterexample: with timeframe 60, the ticks (1000, 99.0),
(1030, 100.5), (1059, 98.7), (1060, 101.0) do NOT produce the closed candle
claimed by the spec's example.  The boundary of epoch 1030 is already 1020
(⌊1030/60⌋·60 = 1020), so the first candle closes after a single tick with
o = h = l = c = 99 and tickCount 1, and the forming candle at 1020 opens at
100.5; epoch 1060 also lies in bucket 1020 and closes nothing. -/
theorem clean_aggregation_cex :
    (processTicks (initAgg 60 500)
        [⟨"R_100", 99, 1000⟩, ⟨"R_100", 100.5, 1030⟩,
         ⟨"R_100", 98.7, 1059⟩, ⟨"R_100", 101, 1060⟩] 60).closedCandles.map
        (fun c => (c.timestamp, c.open_, c.high, c.low, c.close, c.tickCount)) =
      [(960, 99, 99, 99, 99, 1)] ∧
    ¬ (processTicks (initAgg 60 500)
        [⟨"R_100", 99, 1000⟩, ⟨"R_100", 100.5, 1030⟩,
         ⟨"R_100", 98.7, 1059⟩, ⟨"R_100", 101, 1060⟩] 60).closedCandles.map
        (fun c => (c.timestamp, c.open_, c.high, c.low, c.close, c.tickCount)) =
      [(960, 99, 100.5, 98.7, 98.7, 3)] := by
  norm_num [processTicks, List.foldl, processTick, getCandleBoundary,
    newFormingCandle, initAgg, max_def, min_def]

/-- C6, amended: the same tick sequence produces a first closed candle with
startEpoch 960, open = high = low = close = 99.0 and tickCount 1, followed
by a forming candle with startEpoch 1020 and open 100.5, which after the
ticks at 1059 and 1060 holds high 101.0, low 98.7, close 101.0,
tickCount 3. -/
theorem clean_aggregation :
    processTicks (initAgg 60 500)
        [⟨"R_100", 99, 1000⟩, ⟨"R_100", 100.5, 1030⟩,
         ⟨"R_100", 98.7, 1059⟩, ⟨"R_100", 101, 1060⟩] 60 =
      { timeframe := 60,
        closedCandles :=
          [{ symbol := "R_100", timeframe := 60, open_ := 99, high := 99,
             low := 99, close := 99, timestamp := 960, tickCount := 1,
             isForming := false }],
        formingCandle := some
          { symbol := "R_100", timeframe := 60, open_ := 100.5, high := 101,
            low := 98.7, close := 101, timestamp := 1020, tickCount := 3,
            isForming := true },
        maxCandles := 500 } := by
  norm_num [processTicks, List.foldl, processTick, getCandleBoundary,
    newFormingCandle, initAgg, max_def, min_def]

/-- C9, counterexample: after recording one WIN from the fresh stats, the
stored `winRate` is 100 (a percentage), not `wins / totalSignals = 1` as the
spec's invariant states. -/
theorem winRate_invariant_cex :
    (updateSessionStats ⟨0, 0, 0, 0⟩ .WIN).winRate = 100 ∧
    ((updateSessionStats ⟨0, 0, 0, 0⟩ .WIN).wins : ℚ) /
        ((updateSessionStats ⟨0, 0, 0, 0⟩ .WIN).totalSignals : ℚ) = 1 ∧
    (updateSessionStats ⟨0, 0, 0, 0⟩ .WIN).winRate ≠
      ((updateSessionStats ⟨0, 0, 0, 0⟩ .WIN).wins : ℚ) /
        ((updateSessionStats ⟨0, 0, 0, 0⟩ .WIN).totalSignals : ℚ) := by
  refine ⟨by norm_num [updateSessionStats], by norm_num [updateSessionStats],
    by norm_num [updateSessionStats]⟩

/-- C9, amended: after every stats update the record satisfies
`winRate = (wins / totalSignals) * 100` (the rate is stored as a
percentage), with `totalSignals > 0`. -/
theorem winRate_invariant (stats : SessionStats) (outcome : TradeOutcome) :
    (updateSessionStats stats outcome).winRate =
      ((updateSessionStats stats outcome).wins : ℚ) /
        ((updateSessionStats stats outcome).totalSignals : ℚ) * 100 ∧
    0 < (updateSessionStats stats outcome).totalSignals := by
  unfold updateSessionStats
  simp

theorem knnAdd_length_le (buf : KNNBuffer) (f : List ℚ) (label : ℚ) :
    (knnAdd buf f label).features.length ≤ buf.features.length + 1 := by
  unfold knnAdd
  dsimp only
  split
  · simp [List.length_tail]
  · simp

theorem knnAddAll_length_le (samples : List (List ℚ × ℚ)) :
    ∀ buf : KNNBuffer,
      (knnAddAll buf samples).features.length ≤
        buf.features.length + samples.length := by
  induction samples with
  | nil => intro buf; simp [knnAddAll]
  | cons s rest ih =>
      intro buf
      have h1 := knnAdd_length_le buf s.1 s.2
      have h2 := ih (knnAdd buf s.1 s.2)
      have h3 : knnAddAll buf (s :: rest) = knnAddAll (knnAdd buf s.1 s.2) rest := rfl
      rw [h3]
      simp only [List.length_cons]
      omega

/-- C10: the ensemble's kNN (constructed with k = 7, capacity 150) returns
the neutral probability 0.5 on every feature vector while fewer than 7
labelled samples have been added, independently of the distance-weighted
vote `rest`. -/
theorem knn_neutral_before_k (rest : KNNBuffer → List ℚ → ℚ)
    (samples : List (List ℚ × ℚ)) (features : List ℚ)
    (h : samples.length < ensembleK) :
    knnPredict rest (knnAddAll (knnEmpty ensembleKNNSize) samples) ensembleK
      features = 1/2 := by
  have hl := knnAddAll_length_le samples (knnEmpty ensembleKNNSize)
  have hlt : (knnAddAll (knnEmpty ensembleKNNSize) samples).features.length <
      ensembleK := lt_of_le_of_lt (by simpa [knnEmpty] using hl) h
  unfold knnPredict
  simp [hlt]

/-- Witness for C10 with an empty sample list. -/
theorem knn_neutral_before_k_witness :
    knnPredict restKNN (knnAddAll (knnEmpty ensembleKNNSize) []) ensembleK []
      = 1/2 :=
  knn_neutral_before_k restKNN [] [] (by decide)

/-- C8, counterexample: 30 fresh entries already in the window plus one more
recorded outcome leave 31 entries — the trim to 30 only fires above
`windowSize * 2 = 60`, so the claimed 30-entry bound fails. -/
theorem atm_window_cex :
    (atmRecordOutcome (List.replicate 30 ⟨true, 0, 70⟩) 0 true 70).length = 31 ∧
    ¬ (atmRecordOutcome (List.replicate 30 ⟨true, 0, 70⟩) 0 true 70).length ≤ 30 := by
  decide

/-- C8, amended: after every `recordOutcome` the performance window holds at
most 60 (= windowSize · 2) entries, and every surviving entry is strictly
younger than 2 hours (7200000 ms). -/
theorem atm_window_bounds (window : List PerfEntry) (now : Int) (won : Bool)
    (confidence : ℚ) :
    (atmRecordOutcome window now won confidence).length ≤ 2 * atmWindowSize ∧
    ∀ e ∈ atmRecordOutcome window now won confidence,
      now - 7200000 < e.timestamp := by
  refine ⟨?_, ?_⟩
  · simp only [atmRecordOutcome]
    split
    · rename_i hgt
      simp only [List.length_drop]
      unfold atmWindowSize at hgt ⊢
      omega
    · rename_i hle
      unfold atmWindowSize at hle ⊢
      omega
  · intro e he
    simp only [atmRecordOutcome] at he
    split at he
    · have hm := (List.drop_subset _ _) he
      simp only [List.mem_filter, decide_eq_true_eq] at hm
      exact hm.2
    · simp only [List.mem_filter, decide_eq_true_eq] at he
      exact he.2

/-- C7, counterexample: the ensemble's recognizer is constructed with decay
0.99, not the claimed 0.995: recording an outcome for a fresh signature
multiplies the stored counters of "X" by 99/100. -/
theorem pattern_decay_cex :
    ensemblePatternRecord patternMem0 "Y" true "X" = some ⟨99/100, 99/100⟩ ∧
    ensemblePatternRecord patternMem0 "Y" true "X" ≠
      some ⟨(1 : ℚ) * defaultDecayRate, (1 : ℚ) * defaultDecayRate⟩ ∧
    ensembleDecayRate ≠ defaultDecayRate := by
  have hxy : ("X" : String) ≠ "Y" := by decide
  have hyx : ("Y" : String) ≠ "X" := by decide
  refine ⟨?_, ?_, ?_⟩ <;>
    norm_num [ensemblePatternRecord, recordPatternOutcome, ensembleDecayRate,
      defaultDecayRate, patternMem0, hxy, hyx]

/-- C7, amended: on every recorded outcome the ensemble's pattern memory
multiplies each stored signature's (wins, total) by the decay factor 0.99
before the current signature is incremented, evicting any signature whose
decayed total drops below 0.1. -/
theorem pattern_record_spec (mem : PatternMemory) (sig k : String) (won : Bool)
    (s : PatternStats) (hk : mem k = some s) :
    (k ≠ sig → s.total * ensembleDecayRate < 0.1 →
        ensemblePatternRecord mem sig won k = none) ∧
    (k ≠ sig → ¬ s.total * ensembleDecayRate < 0.1 →
        ensemblePatternRecord mem sig won k =
          some ⟨s.wins * ensembleDecayRate, s.total * ensembleDecayRate⟩) ∧
    (k = sig → ¬ s.total * ensembleDecayRate < 0.1 →
        ensemblePatternRecord mem sig won k =
          some ⟨s.wins * ensembleDecayRate + (if won then 1 else 0),
                s.total * ensembleDecayRate + 1⟩) := by
  unfold ensemblePatternRecord recordPatternOutcome
  refine ⟨?_, ?_, ?_⟩
  · intro h1 h2
    simp [h1, hk, h2]
  · intro h1 h2
    simp [h1, hk, h2]
  · intro h1 h2
    subst h1
    simp [hk, h2]

/-- Witness for C7's amended theorem on a concrete memory. -/
theorem pattern_record_spec_witness :
    ensemblePatternRecord patternMem0 "Z" true "X" =
      some ⟨(1 : ℚ) * ensembleDecayRate, (1 : ℚ) * ensembleDecayRate⟩ :=
  (pattern_record_spec patternMem0 "Z" "X" true ⟨1, 1⟩ (by simp [patternMem0])).2.1
    (by decide) (by norm_num [ensembleDecayRate])

/-- C2, counterexample: a closed candle with startEpoch 0 is never recorded
as the session's last signalled candle (JavaScript truthiness), so two
closed events with the identical key (symbol, timeframe, 0) publish two
`candleCloseSignal`s, not one. -/
theorem candleClose_zero_epoch_cex :
    candleCloseEmits "R_100" 60 none [0, 0] = 2 ∧
    ¬ candleCloseEmits "R_100" 60 none [0, 0] ≤ 1 := by
  decide

/-- C2, amended: for a candle with nonzero startEpoch, two consecutive
closed events with the identical (symbol, timeframe, startEpoch) yield at
most one `candleCloseSignal` from any session state, and exactly one from a
session that has not yet signalled. -/
theorem candleClose_dedup (symbol : String) (timeframe : Nat)
    (last : Option Nat) (ts : Nat) (h : ts ≠ 0) :
    candleCloseEmits symbol timeframe last [ts, ts] ≤ 1 ∧
    candleCloseEmits symbol timeframe none [ts, ts] = 1 := by
  constructor
  · cases last with
    | none => simp [candleCloseEmits, candleCloseStep, h]
    | some t =>
        by_cases ht : t = 0
        · simp [candleCloseEmits, candleCloseStep, ht, h]
        · by_cases hkey : candleKey symbol timeframe ts = candleKey symbol timeframe t
          · simp [candleCloseEmits, candleCloseStep, ht, hkey, h]
          · simp [candleCloseEmits, candleCloseStep, ht, hkey, h]
  · simp [candleCloseEmits, candleCloseStep, h]

/-- Witness for C2's amended theorem. -/
theorem candleClose_dedup_witness :
    candleCloseEmits "R_100" 60 (some 120) [60, 60] ≤ 1 ∧
    candleCloseEmits "R_100" 60 none [60, 60] = 1 :=
  candleClose_dedup "R_100" 60 (some 120) 60 (by decide)

/-- C5, counterexample: an out-of-order tick is NOT dropped.  With a forming
candle at boundary 120, the tick at epoch 0 (boundary 0 < 120) freezes the
forming candle into the ring and allocates a new forming candle at 0; after
the subsequent tick at epoch 60 the ring's start epochs are [120, 0], which
is not strictly increasing. -/
theorem outOfOrder_cex :
    (processTicks (initAgg 60 500) [⟨"R_100", 1, 120⟩] 60).formingCandle.map
        (fun c : Candle => c.timestamp) = some 120 ∧
    getCandleBoundary 0 60 < 120 ∧
    (processTick (processTicks (initAgg 60 500) [⟨"R_100", 1, 120⟩] 60)
        ⟨"R_100", 1, 0⟩ 60).1.closedCandles.length = 1 ∧
    (processTicks (initAgg 60 500) [⟨"R_100", 1, 120⟩] 60).closedCandles.length = 0 ∧
    (processTick (processTicks (initAgg 60 500) [⟨"R_100", 1, 120⟩] 60)
        ⟨"R_100", 1, 0⟩ 60).1.formingCandle.map (fun c : Candle => c.timestamp) = some 0 ∧
    ringTimes (processTicks (initAgg 60 500)
        [⟨"R_100", 1, 120⟩, ⟨"R_100", 1, 0⟩, ⟨"R_100", 1, 60⟩] 60) = [120, 0] ∧
    ¬ List.Pairwise (· < ·) (ringTimes (processTicks (initAgg 60 500)
        [⟨"R_100", 1, 120⟩, ⟨"R_100", 1, 0⟩, ⟨"R_100", 1, 60⟩] 60)) := by
  decide

/-- Helper: candle boundaries are monotone in the timestamp. -/
theorem getCandleBoundary_mono (a b tf : Nat) (h : a ≤ b) :
    getCandleBoundary a tf ≤ getCandleBoundary b tf :=
  Nat.mul_le_mul_right _ (Nat.div_le_div_right h)

/-- Helper: the aggregator invariant is monotone in the bound. -/
theorem aggInv_mono (agg : SymbolAggregator) (b1 b2 : Nat) (h : AggInv agg b1)
    (hb : b1 ≤ b2) : AggInv agg b2 :=
  ⟨h.1, fun x hx => le_trans (h.2.1 x hx) hb, h.2.2⟩

/-- Helper: with a forming candle present, `aggTimes` splits off its epoch. -/
theorem aggTimes_some (agg : SymbolAggregator) (f : Candle)
    (h : agg.formingCandle = some f) :
    aggTimes agg = ringTimes agg ++ [f.timestamp] := by
  unfold aggTimes ringTimes
  rw [h]

/-- Helper: one `processTick` step preserves the aggregator invariant at the
tick's boundary. -/
theorem aggInv_step (agg : SymbolAggregator) (t : Tick) (tf : Nat)
    (h : AggInv agg (getCandleBoundary t.timestamp tf)) :
    AggInv (processTick agg t tf).1 (getCandleBoundary t.timestamp tf) := by
  obtain ⟨hpw, hbd, hni⟩ := h
  cases hf : agg.formingCandle with
  | none =>
      have hcl : agg.closedCandles = [] := hni hf
      have hstep : (processTick agg t tf).1 = { agg with formingCandle := some (newFormingCandle t tf (getCandleBoundary t.timestamp tf)) } := by
        simp [processTick, hf]
      rw [hstep]
      refine ⟨?_, ?_, ?_⟩ <;> simp [aggTimes, hcl, newFormingCandle]
  | some f =>
      by_cases hb : getCandleBoundary t.timestamp tf = f.timestamp
      · have hstep : (processTick agg t tf).1 = { agg with formingCandle := some { f with high := max f.high t.price, low := min f.low t.price, close := t.price, tickCount := f.tickCount + 1 } } := by
          simp [processTick, hf, hb]
        have hAt : aggTimes (processTick agg t tf).1 = aggTimes agg := by
          rw [hstep, aggTimes_some agg f hf]
          unfold aggTimes ringTimes
          simp
        refine ⟨?_, ?_, ?_⟩
        · rw [hAt]; exact hpw
        · rw [hAt]; exact hbd
        · intro hn
          rw [hstep] at hn
          simp at hn
      · -- a different boundary freezes the forming candle
        have hfl : f.timestamp ≤ getCandleBoundary t.timestamp tf := by
          apply hbd
          rw [aggTimes_some agg f hf]
          simp
        have hflt : f.timestamp < getCandleBoundary t.timestamp tf :=
          lt_of_le_of_ne hfl (fun he => hb he.symm)
        have hMlt : ∀ x ∈ ringTimes agg, x < f.timestamp := by
          intro x hx
          have := (List.pairwise_append.1 (by
            rw [aggTimes_some agg f hf] at hpw; exact hpw)).2.2 x hx f.timestamp
          simp at this
          exact this
        have hstep : (processTick agg t tf).1 = { agg with closedCandles := if agg.maxCandles < (agg.closedCandles ++ [{ f with isForming := false }]).length then (agg.closedCandles ++ [{ f with isForming := false }]).tail else agg.closedCandles ++ [{ f with isForming := false }], formingCandle := some (newFormingCandle t tf (getCandleBoundary t.timestamp tf)) } := by
          simp [processTick, hf, hb]
        -- timestamps of the new ring
        have hpush : (agg.closedCandles ++ [{ f with isForming := false }]).map
            (fun c : Candle => c.timestamp) = ringTimes agg ++ [f.timestamp] := by
          unfold ringTimes
          simp
        have hnewring : ((processTick agg t tf).1.closedCandles).map (fun c : Candle => c.timestamp) =
            (if agg.maxCandles < (agg.closedCandles ++ [{ f with isForming := false }]).length
             then (ringTimes agg ++ [f.timestamp]).tail
             else ringTimes agg ++ [f.timestamp]) := by
          rw [hstep]
          by_cases hc : agg.maxCandles < (agg.closedCandles ++ [{ f with isForming := false }]).length
          · simp only [hc, if_true]
            rw [← hpush, List.map_tail]
          · simp only [hc, if_false]
            exact hpush
        have hpwMf : List.Pairwise (· < ·) (ringTimes agg ++ [f.timestamp]) := by
          rw [aggTimes_some agg f hf] at hpw
          exact hpw
        have hsub : List.Sublist
            ((if agg.maxCandles < (agg.closedCandles ++ [{ f with isForming := false }]).length
              then (ringTimes agg ++ [f.timestamp]).tail
              else ringTimes agg ++ [f.timestamp]))
            (ringTimes agg ++ [f.timestamp]) := by
          by_cases hc : agg.maxCandles < (agg.closedCandles ++ [{ f with isForming := false }]).length
          · simp only [hc, if_true]
            exact List.tail_sublist _
          · simp only [hc, if_false]
            exact List.Sublist.refl _
        have hbound : ∀ x ∈ ringTimes agg ++ [f.timestamp], x < getCandleBoundary t.timestamp tf := by
          intro x hx
          rcases List.mem_append.1 hx with hx | hx
          · exact lt_trans (hMlt x hx) hflt
          · simp at hx
            rw [hx]
            exact hflt
        have hAt : aggTimes (processTick agg t tf).1 =
            ((processTick agg t tf).1.closedCandles).map (fun c : Candle => c.timestamp) ++
              [getCandleBoundary t.timestamp tf] := by
          have hfc : (processTick agg t tf).1.formingCandle = some (newFormingCandle t tf (getCandleBoundary t.timestamp tf)) := by
            rw [hstep]
          rw [aggTimes_some _ _ hfc]
          rfl
        refine ⟨?_, ?_, ?_⟩
        · rw [hAt, hnewring]
          refine List.pairwise_append.2 ⟨hpwMf.sublist hsub, List.pairwise_singleton _ _, ?_⟩
          intro a ha b hbmem
          simp at hbmem
          rw [hbmem]
          exact hbound a (hsub.mem ha)
        · intro x hx
          rw [hAt, hnewring] at hx
          rcases List.mem_append.1 hx with hx | hx
          · exact le_of_lt (hbound x (hsub.mem hx))
          · simp at hx
            rw [hx]
        · intro hn
          rw [hstep] at hn
          simp at hn

/-- Helper: folding nondecreasing ticks from an invariant state keeps the
combined epochs strictly increasing. -/
theorem aggInv_fold (tf : Nat) (ticks : List Tick) :
    ∀ (agg : SymbolAggregator) (bnd : Nat), AggInv agg bnd →
      List.Pairwise (fun a b => a.timestamp ≤ b.timestamp) ticks →
      (∀ t ∈ ticks, bnd ≤ getCandleBoundary t.timestamp tf) →
      List.Pairwise (· < ·) (aggTimes (processTicks agg ticks tf)) := by
  induction ticks with
  | nil =>
      intro agg bnd h _ _
      exact h.1
  | cons t rest ih =>
      intro agg bnd h hpw hall
      have hb : bnd ≤ getCandleBoundary t.timestamp tf :=
        hall t (List.mem_cons_self t rest)
      have h1 := aggInv_step agg t tf (aggInv_mono agg bnd _ h hb)
      have hrest : ∀ u ∈ rest,
          getCandleBoundary t.timestamp tf ≤ getCandleBoundary u.timestamp tf := by
        intro u hu
        exact getCandleBoundary_mono _ _ _ ((List.pairwise_cons.1 hpw).1 u hu)
      have hstep : processTicks agg (t :: rest) tf =
          processTicks (processTick agg t tf).1 rest tf := rfl
      rw [hstep]
      exact ih _ _ h1 (List.pairwise_cons.1 hpw).2 hrest

/-- C5, amended: a tick whose boundary differs from the forming candle's
startEpoch (earlier included) closes the forming candle rather than being
dropped; the closed ring's startEpoch values are strictly increasing
provided ticks are processed in nondecreasing timestamp order from an
initialized-empty aggregator. -/
theorem inOrder_ring_strictMono (tf maxC : Nat) (ticks : List Tick)
    (h : List.Pairwise (fun a b => a.timestamp ≤ b.timestamp) ticks) :
    List.Pairwise (· < ·) (ringTimes (processTicks (initAgg tf maxC) ticks tf)) := by
  have h0 : AggInv (initAgg tf maxC) 0 := by
    refine ⟨?_, ?_, ?_⟩ <;> simp [initAgg, aggTimes]
  have hall : ∀ t ∈ ticks, 0 ≤ getCandleBoundary t.timestamp tf :=
    fun t _ => Nat.zero_le _
  have hfin := aggInv_fold tf ticks (initAgg tf maxC) 0 h0 h hall
  have hsub : List.Sublist (ringTimes (processTicks (initAgg tf maxC) ticks tf))
      (aggTimes (processTicks (initAgg tf maxC) ticks tf)) := by
    unfold aggTimes ringTimes
    exact List.sublist_append_left _ _
  exact hfin.sublist hsub

/-- Witness for C5's amended theorem on three in-order ticks. -/
theorem inOrder_ring_strictMono_witness :
    List.Pairwise (· < ·) (ringTimes (processTicks (initAgg 60 500)
      [⟨"R_100", 1, 0⟩, ⟨"R_100", 1, 60⟩, ⟨"R_100", 1, 120⟩] 60)) :=
  inOrder_ring_strictMono 60 500 _ (by decide)
